import Mathlib

set_option linter.unusedVariables false

namespace GlyphRaster

/-! Shallow embedding of gfx/wr/wr_glyph_rasterizer/src/platform/macos/font.rs.
Machine floats (f32 and f64) are modelled as rationals; the CoreGraphics values
that may be NaN at the queried interface (the glyph bounding rect) are modelled
by an explicit nan constructor.  External CoreText and CoreGraphics calls are
oracle functions gathered in a FontEnv record.  Types and helper operations that
live elsewhere in the repository (the api crate and rasterizer.rs, outside the
provided src tree) are either modelled from the spec or passed as parameters in
a RasterizerOps record, as noted on each definition. -/

/-- Modelled from the spec: opaque FontIdentity key from the api crate (outside
src); the core only indexes by it, so a natural number stands in. -/
abbrev FontKey := Nat

/-- Opaque handle standing for a native CGFont object. -/
abbrev CGFont := Nat

/-- Opaque handle standing for a CTFontDescriptor object. -/
abbrev Descriptor := Nat

/-- Opaque handle standing for an Arc byte buffer passed to add_raw_font. -/
abbrev Bytes := Nat

/-- Modelled from the spec: FontVariation from the api crate (outside src), a
variation-axis tag (u32) together with the requested value (f32). -/
structure FontVariation where
  tag : Nat
  value : ℚ
deriving DecidableEq

/-- Modelled from the spec: render-mode enum Mono, Alpha, Subpixel of the api
crate (outside src). -/
inductive FontRenderMode where
  | Mono
  | Alpha
  | Subpixel
deriving DecidableEq

/-- Modelled from the spec: ColorU of the api crate (outside src), four u8
channels; channel values stay below 256 under the operations embedded here. -/
structure ColorU where
  r : Nat
  g : Nat
  b : Nat
  a : Nat
deriving DecidableEq

/-- Modelled from the spec: ColorF of the api crate (outside src), four f32
channels modelled as rationals. -/
structure ColorF where
  r : ℚ
  g : ℚ
  b : ℚ
  a : ℚ
deriving DecidableEq

def ColorF.BLACK : ColorF := ⟨0, 0, 0, 1⟩

def ColorF.WHITE : ColorF := ⟨1, 1, 1, 1⟩

def ColorF.TRANSPARENT : ColorF := ⟨0, 0, 0, 0⟩

/-- Modelled from the spec: conversion ColorF::from(ColorU) of the api crate
(outside src), dividing each u8 channel by 255. -/
def ColorF.fromU (c : ColorU) : ColorF := ⟨c.r / 255, c.g / 255, c.b / 255, c.a / 255⟩

/-- Modelled from the spec: the flag set of a FontInstance (api crate, outside
src): flip-x, flip-y, transpose, font-smoothing, embedded-bitmaps,
synthetic-bold, multistrike-bold and the subpixel-position flag. -/
structure FontInstanceFlags where
  font_smoothing : Bool
  embedded_bitmaps : Bool
  subpixel_position : Bool
  flip_x : Bool
  flip_y : Bool
  transpose : Bool
  synthetic_bold : Bool
  multistrike_bold : Bool
deriving DecidableEq

/-- Modelled from the spec: the 2x2 linear font transform of rasterizer.rs
(outside src). -/
structure FontTransform where
  scale_x : ℚ
  skew_x : ℚ
  skew_y : ℚ
  scale_y : ℚ
deriving DecidableEq

def FontTransform.identity : FontTransform := ⟨1, 0, 0, 1⟩

/-- Modelled from the spec: the synthetic-italics setting of the api crate
(outside src); an angle of zero means disabled. -/
structure SyntheticItalics where
  angle : ℤ
deriving DecidableEq

def SyntheticItalics.isEnabled (s : SyntheticItalics) : Bool := s.angle ≠ 0

/-- Modelled from the spec: FontInstance of rasterizer.rs (outside src); size
carries the pixel size already converted by to_f64_px. -/
structure FontInstance where
  font_key : FontKey
  size : ℚ
  transform : FontTransform
  variations : List FontVariation
  flags : FontInstanceFlags
  color : ColorU
  render_mode : FontRenderMode
  synthetic_italics : SyntheticItalics
deriving DecidableEq

/-- Modelled from the spec: GlyphKey of rasterizer.rs (outside src); only the
glyph index (u32) is inspected directly by the embedded code, the subpixel
bucket is consumed through the opaque get_subpx_offset operation. -/
structure GlyphKey where
  index : Nat
  subpx : Nat
deriving DecidableEq

/-- Modelled from the spec: the single-variant error enum GlyphRasterError of
rasterizer.rs (outside src); LoadFailed is its only value. -/
inductive GlyphRasterError where
  | LoadFailed
deriving DecidableEq

/-- Modelled from the spec: glyph format tags of the api crate (outside src). -/
inductive GlyphFormat where
  | Alpha
  | TransformedAlpha
  | Subpixel
  | TransformedSubpixel
  | Bitmap
  | ColorBitmap
deriving DecidableEq

/-- Modelled from the spec: RasterizedGlyph of rasterizer.rs (outside src). -/
structure RasterizedGlyph where
  left : ℚ
  top : ℚ
  width : ℤ
  height : ℤ
  scale : ℚ
  format : GlyphFormat
  bytes : List Nat
deriving DecidableEq

/-- Modelled from the spec: NativeFontHandle of the api crate (outside src), a
postscript name together with an optional file path. -/
structure NativeFontHandle where
  name : String
  path : String

/-- Modelled from the spec: FontSize::from_f64_px quantization of the api crate
(outside src); app units are a fixed-point 1/60 px grid.  The claims settled
here do not depend on the exact rounding, only on the quantization being a
function of the pixel size. -/
def fontSizeFromF64Px (px : ℚ) : ℤ := ⌊px * 60⌋

/-- A CoreGraphics float that may be NaN: the nan constructor models the NaN
payloads CoreText returns for unexpected glyph indices. -/
inductive CGF where
  | nan
  | fin (q : ℚ)
deriving DecidableEq

def CGF.isNaN : CGF → Bool
  | .nan => true
  | .fin _ => false

/-- Numeric payload of a CGF value; defaulting the nan case to 0 is harmless
because every use site is behind the NaN guard of get_glyph_metrics. -/
def CGF.toQ : CGF → ℚ
  | .nan => 0
  | .fin q => q

/-- CGRect as returned by CTFontGetBoundingRectsForGlyphs; the nested
origin/size pair of the source is flattened into four fields. -/
structure CGRectM where
  originX : CGF
  originY : CGF
  width : CGF
  height : CGF
deriving DecidableEq

/-- CGAffineTransform with rational entries; the source builds it from the
composed shape transform plus a translation. -/
structure CGAffineTransformM where
  a : ℚ
  b : ℚ
  c : ℚ
  d : ℚ
  tx : ℚ
  ty : ℚ
deriving DecidableEq

/-- CGPointApplyAffineTransform on a rational point. -/
def applyAffine (t : CGAffineTransformM) (p : ℚ × ℚ) : ℚ × ℚ :=
  (t.a * p.1 + t.c * p.2 + t.tx, t.b * p.1 + t.d * p.2 + t.ty)

/-- CGAffineTransformInvert; a singular transform is returned unchanged, which
matches the documented CoreGraphics behaviour. -/
def invertAffine (t : CGAffineTransformM) : CGAffineTransformM :=
  let det := t.a * t.d - t.b * t.c
  if det = 0 then t
  else ⟨t.d / det, -t.b / det, -t.c / det, t.a / det,
        (t.c * t.ty - t.d * t.tx) / det, (t.b * t.tx - t.a * t.ty) / det⟩

/-- CGRectApplyAffineTransform: the bounding box of the four transformed
corners, returned as origin-x, origin-y, width, height. -/
def applyTransformRect (t : CGAffineTransformM) (x y w h : ℚ) : ℚ × ℚ × ℚ × ℚ :=
  let c1 := applyAffine t (x, y)
  let c2 := applyAffine t (x + w, y)
  let c3 := applyAffine t (x, y + h)
  let c4 := applyAffine t (x + w, y + h)
  let nx := min (min c1.1 c2.1) (min c3.1 c4.1)
  let ny := min (min c1.2 c2.2) (min c3.2 c4.2)
  let mx := max (max c1.1 c2.1) (max c3.1 c4.1)
  let my := max (max c1.2 c2.2) (max c3.2 c4.2)
  (nx, ny, mx - nx, my - ny)

/-- CTFont object as instantiated by new_ct_font_with_variations: the backing
CGFont, the pixel size, and the variation values actually applied (empty for
the unvaried font). -/
structure CTFont where
  cgFont : CGFont
  size : ℚ
  appliedVars : List (String × ℚ)
deriving DecidableEq

/-- One variation axis dictionary as read back from CTFontCopyVariationAxes;
each field is optional because the source bails out to the unvaried font
whenever a key is missing or its value fails the type or conversion checks. -/
structure AxisRaw where
  tag : Option ℤ
  name : Option String
  minVal : Option ℚ
  maxVal : Option ℚ
  defVal : Option ℚ

/-- An element of the axes array: none models an element that is not a
CFDictionary (the instance_of check in the source). -/
abbrev AxisEntry := Option AxisRaw

/-- Glyph metrics struct of the source (rasterized_left, rasterized_descent,
rasterized_ascent, rasterized_width, rasterized_height, advance). -/
structure GlyphMetrics where
  rasterized_left : ℤ
  rasterized_descent : ℤ
  rasterized_ascent : ℤ
  rasterized_width : ℤ
  rasterized_height : ℤ
  advance : ℚ
deriving DecidableEq

def zeroGlyphMetrics : GlyphMetrics := ⟨0, 0, 0, 0, 0, 0⟩

/-- Modelled from the spec: the gamma LUT module (gamma_lut.rs, outside src);
its preblend table lookups and the linearization pass are opaque pixel
transformations parameterized by the text color. -/
structure GammaLut where
  preblend : List Nat → ColorU → List Nat
  preblend_grayscale : List Nat → ColorU → List Nat
  coregraphics_convert_to_linear : List Nat → List Nat

/-- Parameters of the drawing block of rasterize_glyph (lines 739-818 of the
source): every CoreGraphics context call in that block is a side effect on the
native surface, so the block is collapsed into one oracle invocation receiving
the exact configuration the source sets. -/
structure DrawParams where
  size : Nat × Nat
  antialias : Bool
  smooth : Bool
  textColor : ColorF
  bgColor : ColorF
  drawOrigin : ℚ × ℚ
  textMatrix : Option CGAffineTransformM
  extraStrikes : Nat
  pixelStep : ℚ

/-- Oracles for the external CoreText and CoreGraphics services consumed by the
source file: font creation by data, name or descriptor, variation-axis
enumeration, character-to-glyph lookup, glyph bounds and advances, and the
draw-then-read-back of a glyph into the pooled surface. -/
structure FontEnv where
  fromDataProvider : Bytes → Option CGFont
  fromName : String → Option CGFont
  newFromPostscriptName : String → Descriptor
  descriptorOfCGFont : CGFont → Descriptor
  createCopyWithAttributes : Descriptor → String → Option Descriptor
  copyVariationAxes : CGFont → Option (List AxisEntry)
  glyphsForChars : CTFont → Nat → Option Nat
  getBoundingRects : CTFont → Nat → CGRectM
  getAdvances : CTFont → Nat → ℚ
  drawAndReadback : CTFont → Nat → DrawParams → List Nat

/-- Modelled from the spec: the FontInstance and FontTransform helper methods
defined in rasterizer.rs (outside src) and used by the embedded code; they are
passed as opaque function parameters because no settled claim depends on their
concrete values, only on how the source threads them through. -/
structure RasterizerOps where
  computeScale : FontTransform → Option (ℚ × ℚ)
  invertScale : FontTransform → ℚ → ℚ → FontTransform
  flipXT : FontTransform → FontTransform
  flipYT : FontTransform → FontTransform
  swapXYT : FontTransform → FontTransform
  isIdentity : FontTransform → Bool
  getSubpxOffset : FontInstance → GlyphKey → ℚ × ℚ
  synthesizeItalics : FontInstance → FontTransform → ℚ → FontTransform × ℚ × ℚ
  getExtraStrikes : FontInstance → ℚ → Nat
  getGlyphFormat : FontInstance → GlyphFormat
  getTransformedSize : FontInstance → ℚ
  quantize : ColorU → ColorU
  luminanceColor : ColorU → ColorU

/-- Source constant INITIAL_CG_CONTEXT_SIDE_LENGTH. -/
def INITIAL_CG_CONTEXT_SIDE_LENGTH : Nat := 32

/-- Rust u32::next_power_of_two: the smallest power of two greater than or
equal to the argument, with 0 mapped to 1; written with an explicit fuel so it
reduces by decide. -/
def next_power_of_two (n : Nat) : Nat := go n 1
where
  go : Nat → Nat → Nat
    | 0, p => p
    | fuel + 1, p => if n ≤ p then p else go fuel (2 * p)

/-- Glyph category enum of the source. -/
inductive GlyphType where
  | Vector
  | Bitmap
deriving DecidableEq

/-- GraphicsContext state: the two pooled surface sizes.  The CGContext objects
themselves are native surfaces whose pixel contents are external; the only
state the source logic observes is each surface's current size. -/
structure GraphicsContext where
  vectorContextSize : Nat × Nat
  bitmapContextSize : Nat × Nat
deriving DecidableEq

/-- GraphicsContext::new: both pooled surfaces start at the initial side
length. -/
def GraphicsContext.new : GraphicsContext :=
  ⟨(INITIAL_CG_CONTEXT_SIDE_LENGTH, INITIAL_CG_CONTEXT_SIDE_LENGTH),
   (INITIAL_CG_CONTEXT_SIDE_LENGTH, INITIAL_CG_CONTEXT_SIDE_LENGTH)⟩

/-- GraphicsContext::get_context: round the requested size up to a power of two
per dimension; if either rounded dimension exceeds the cached surface, grow the
cached size to the componentwise max and recreate the surface. -/
def getContext (gc : GraphicsContext) (size : Nat × Nat) (glyph_type : GlyphType) :
    GraphicsContext :=
  let cached := match glyph_type with
    | .Vector => gc.vectorContextSize
    | .Bitmap => gc.bitmapContextSize
  let rounded := (next_power_of_two size.1, next_power_of_two size.2)
  let newSize :=
    if rounded.1 > cached.1 ∨ rounded.2 > cached.2 then
      (max cached.1 rounded.1, max cached.2 rounded.2)
    else cached
  match glyph_type with
  | .Vector => { gc with vectorContextSize := newSize }
  | .Bitmap => { gc with bitmapContextSize := newSize }

/-- FontContext state: the base-font map, the sized/varied font cache, the
surface pool and the gamma LUT. -/
structure FontContext where
  cg_fonts : FontKey → Option CGFont
  ct_fonts : FontKey × ℤ × List FontVariation → Option CTFont
  graphics_context : GraphicsContext
  gamma_lut : GammaLut

/-- FontContext::new with the externally constructed gamma LUT supplied as a
parameter. -/
def FontContext.new (lut : GammaLut) : FontContext :=
  { cg_fonts := fun _ => none
    ct_fonts := fun _ => none
    graphics_context := GraphicsContext.new
    gamma_lut := lut }

/-- is_bitmap_font: the EMBEDDED_BITMAPS flag decides the glyph category. -/
def isBitmapFont (font : FontInstance) : Bool := font.flags.embedded_bitmaps

/-- Per-axis collection loop of new_ct_font_with_variations.  A none result
models every early return-of-the-unvaried-font path (non-dictionary axis,
missing or malformed tag, name, minimum, maximum or default); an axis whose tag
has no caller-supplied variation is skipped with continue. -/
def collectVals (variations : List FontVariation) : List AxisEntry → Option (List (String × ℚ))
  | [] => some []
  | none :: _ => none
  | some axis :: rest =>
    match axis.tag with
    | none => none
    | some tag_val =>
      match variations.find? (fun variation => (variation.tag : ℤ) = tag_val) with
      | none => collectVals variations rest
      | some variation =>
        match axis.name, axis.minVal, axis.maxVal, axis.defVal with
        | some name, some min_val, some max_val, some def_val =>
          match collectVals variations rest with
          | none => none
          | some restVals =>
            let val := min (max variation.value min_val) max_val
            some (if val ≠ def_val then (name, val) :: restVals else restVals)
        | _, _, _, _ => none

/-- new_ct_font_with_variations: instantiate a CTFont from the CGFont at the
given size; with no requested variations, a null or malformed axes array, or an
empty collected value set, the unvaried font is returned, otherwise a varied
copy carrying the collected values.  The create_copy_from_variations unwrap is
modelled as always succeeding. -/
def newCtFontWithVariations (env : FontEnv) (cg_font : CGFont) (size : ℚ)
    (variations : List FontVariation) : CTFont :=
  let unvaried : CTFont := ⟨cg_font, size, []⟩
  if variations = [] then unvaried
  else
    match env.copyVariationAxes cg_font with
    | none => unvaried
    | some axes =>
      match collectVals variations axes with
      | none => unvaried
      | some vals =>
        if vals = [] then unvaried
        else ⟨cg_font, size, vals⟩

/-- FontContext::get_ct_font: return the cached sized/varied font, or
instantiate and memoize one when the base font is present; none when the base
font is absent. -/
def getCtFont (env : FontEnv) (st : FontContext) (font_key : FontKey) (size : ℚ)
    (variations : List FontVariation) : Option CTFont × FontContext :=
  let k := (font_key, fontSizeFromF64Px size, variations)
  match st.ct_fonts k with
  | some ct => (some ct, st)
  | none =>
    match st.cg_fonts font_key with
    | none => (none, st)
    | some cg_font =>
      let ct := newCtFontWithVariations env cg_font size variations
      (some ct, { st with ct_fonts := fun k2 => if k2 = k then some ct else st.ct_fonts k2 })

/-- FontContext::add_raw_font: no-op when the key is present; asserts the face
index is zero (a panic, modelled as an error result); silently drops data the
native service rejects. -/
def addRawFont (env : FontEnv) (st : FontContext) (font_key : FontKey) (bytes : Bytes)
    (index : Nat) : Except String FontContext :=
  if (st.cg_fonts font_key).isSome then .ok st
  else if index ≠ 0 then .error "assertion failed: index == 0"
  else
    match env.fromDataProvider bytes with
    | none => .ok st
    | some cg_font =>
      .ok { st with cg_fonts := fun k => if k = font_key then some cg_font else st.cg_fonts k }

/-- Rust starts_with on the single character dot, written over the character
list so it reduces on literals. -/
def startsWithDot (s : String) : Bool :=
  match s.data with
  | [] => false
  | c :: _ => c = '.'

/-- FontContext::add_native_font.  The descriptor is computed exactly as in the
source (including the Lucida Grande fallback, with its expect modelled as an
error on failure) but, as in the source, the final insertion ignores the
descriptor and unwraps CGFont::from_name on the original handle name; that
unwrap is a panic, modelled as an error result. -/
def addNativeFont (env : FontEnv) (st : FontContext) (font_key : FontKey)
    (native_font_handle : NativeFontHandle) : Except String FontContext :=
  if (st.cg_fonts font_key).isSome then .ok st
  else
    let descE : Except String Descriptor :=
      if startsWithDot native_font_handle.name then
        match env.fromName native_font_handle.name with
        | some cg_font => .ok (env.descriptorOfCGFont cg_font)
        | none =>
          match env.fromName "Lucida Grande" with
          | some cg_font => .ok (env.descriptorOfCGFont cg_font)
          | none => .error "couldn't find font with postscript name and couldn't load fallback font"
      else .ok (env.newFromPostscriptName native_font_handle.name)
    match descE with
    | .error e => .error e
    | .ok desc =>
      let _descWithPath :=
        if native_font_handle.path.length > 0 then
          (env.createCopyWithAttributes desc native_font_handle.path).getD desc
        else desc
      match env.fromName native_font_handle.name with
      | some cg_font =>
        .ok { st with cg_fonts := fun k => if k = font_key then some cg_font else st.cg_fonts k }
      | none => .error "called Result::unwrap() on an Err value"

/-- FontContext::delete_font: when the base font is present, remove it and
retain only sized/varied cache entries whose key component differs. -/
def deleteFont (st : FontContext) (font_key : FontKey) : FontContext :=
  match st.cg_fonts font_key with
  | none => st
  | some _ =>
    { st with
      cg_fonts := fun k => if k = font_key then none else st.cg_fonts k
      ct_fonts := fun k => if k.1 = font_key then none else st.ct_fonts k }

/-- FontContext::delete_font_instance: drop the one cached entry for the
instance's transformed size and variations. -/
def deleteFontInstance (ops : RasterizerOps) (st : FontContext) (inst : FontInstance) :
    FontContext :=
  let k := (inst.font_key, fontSizeFromF64Px (ops.getTransformedSize inst),
            inst.variations)
  { st with ct_fonts := fun k2 => if k2 = k then none else st.ct_fonts k2 }

/-- FontContext::get_glyph_index: truncate the character to a u16 code unit and
query the glyph through the sized font cached at a fixed 16px with no
variations. -/
def getGlyphIndex (env : FontEnv) (st : FontContext) (font_key : FontKey) (ch : Nat) :
    Option Nat × FontContext :=
  let character := ch % 65536
  let p := getCtFont env st font_key 16 []
  (p.1.bind (fun ct_font => env.glyphsForChars ct_font character), p.2)

/-- get_glyph_metrics: guard against NaN bounds, add the extra width to
positive widths and advances, apply the optional transform, round outward to
pixel edges, and outset by one pixel. -/
def getGlyphMetrics (env : FontEnv) (ct_font : CTFont) (transform : Option CGAffineTransformM)
    (glyph : Nat) (x_offset y_offset extra_width : ℚ) : GlyphMetrics :=
  let bounds := env.getBoundingRects ct_font glyph
  if bounds.originX.isNaN ∨ bounds.originY.isNaN ∨ bounds.width.isNaN ∨ bounds.height.isNaN then
    zeroGlyphMetrics
  else
    let advance0 := env.getAdvances ct_font glyph
    let bw0 := bounds.width.toQ
    let bw1 := if bw0 > 0 then bw0 + extra_width else bw0
    let advance := if advance0 > 0 then advance0 + extra_width else advance0
    let box : ℚ × ℚ × ℚ × ℚ :=
      match transform with
      | some t => applyTransformRect t bounds.originX.toQ bounds.originY.toQ bw1 bounds.height.toQ
      | none => (bounds.originX.toQ, bounds.originY.toQ, bw1, bounds.height.toQ)
    let left0 : ℤ := ⌊box.1⌋
    let bottom0 : ℤ := ⌊box.2.1⌋
    let right0 : ℤ := ⌈box.1 + box.2.2.1 + x_offset⌉
    let top0 : ℤ := ⌈box.2.1 + box.2.2.2 + y_offset⌉
    let left := left0 - 1
    let bottom := bottom0 - 1
    let right := right0 + 1
    let top := top0 + 1
    ⟨left, -bottom, top, right - left, top - bottom, advance⟩

/-- Rust cast of an i32 to u32: two's-complement reinterpretation. -/
def u32cast (i : ℤ) : Nat := (i % 4294967296).toNat

/-- Modelled from the spec: FontRenderMode ordering Mono < Alpha < Subpixel
used by limit_by (api crate, outside src). -/
def FontRenderMode.rank : FontRenderMode → Nat
  | .Mono => 0
  | .Alpha => 1
  | .Subpixel => 2

/-- Modelled from the spec: FontRenderMode::limit_by (api crate, outside src):
cap the mode at what the capability argument supports. -/
def limitBy (m other : FontRenderMode) : FontRenderMode :=
  if m.rank > other.rank then other else m

/-- Modelled from the spec: FontInstance::disable_subpixel_position
(rasterizer.rs, outside src) clears the subpixel-position flag. -/
def disableSubpixelPosition (font : FontInstance) : FontInstance :=
  { font with flags := { font.flags with subpixel_position := false } }

/-- FontContext::prepare_font, with the process-wide FONT_SMOOTHING_MODE probe
result passed as the smoothingMode parameter: bitmap fonts are forced to Mono
with subpixel positioning disabled and their color untouched; otherwise the
render mode is sanitized against the smoothing capability, then the color and
subpixel flag are normalized per resulting mode. -/
def prepareFont (smoothingMode : Option FontRenderMode) (ops : RasterizerOps)
    (font : FontInstance) : FontInstance :=
  if isBitmapFont font then
    disableSubpixelPosition { font with render_mode := .Mono }
  else
    let f1 :=
      if font.flags.font_smoothing ∨ font.render_mode = .Subpixel then
        match smoothingMode with
        | some mode =>
          { font with
            render_mode := limitBy font.render_mode mode
            flags := { font.flags with font_smoothing := true } }
        | none =>
          { font with
            render_mode := limitBy font.render_mode .Alpha
            flags := { font.flags with font_smoothing := false } }
      else font
    match f1.render_mode with
    | .Mono => disableSubpixelPosition { f1 with color := ⟨255, 255, 255, 255⟩ }
    | .Alpha =>
      { f1 with
        color :=
          if f1.flags.font_smoothing then ops.quantize (ops.luminanceColor f1.color)
          else ⟨255, 255, 255, 255⟩ }
    | .Subpixel => { f1 with color := ops.quantize f1.color }

/-- FontContext::gamma_correct_pixels, with the process-wide
FONT_SMOOTHING_MODE probe result passed as the smoothingMode parameter: derive
the smoothed color from the probe result, then preblend per the render mode,
leaving Mono pixels untouched. -/
def gammaCorrectPixels (lut : GammaLut) (smoothingMode : Option FontRenderMode)
    (pixels : List Nat) (render_mode : FontRenderMode) (color : ColorU) : List Nat :=
  let smooth_color :=
    match smoothingMode with
    | some .Subpixel => ColorU.mk (color.r - color.r / 4) (color.g - color.g / 4)
        (color.b - color.b / 4) color.a
    | some .Alpha => ColorU.mk (color.r / 2) (color.g / 2) (color.b / 2) color.a
    | _ => color
  match render_mode with
  | .Alpha => lut.preblend_grayscale pixels smooth_color
  | .Subpixel => lut.preblend pixels smooth_color
  | _ => pixels

/-- Channel inversion and alpha synthesis loop of rasterize_glyph: each 4-byte
chunk b,g,r,a becomes 255-b, 255-g, 255-r with the alpha set to the inverted
green channel; buffers are always a multiple of four bytes, a shorter tail is
left unchanged. -/
def invertAndAlpha : List Nat → List Nat
  | p0 :: p1 :: p2 :: _p3 :: rest =>
    (255 - p0) :: (255 - p1) :: (255 - p2) :: (255 - p1) :: invertAndAlpha rest
  | other => other

/-- Intermediate values of rasterize_glyph shared between the transform, the
metrics and the drawing configuration. -/
structure RasterPlan where
  glyphType : GlyphType
  xOffset : ℚ
  yOffset : ℚ
  tx : ℚ
  ty : ℚ
  transform : Option CGAffineTransformM
  strikeScale : ℚ
  pixelStep : ℚ
  extraStrikes : Nat
  metrics : GlyphMetrics

/-- Transform and metrics computation of rasterize_glyph (lines 626-688 of the
source), given the resolved sized font. -/
def rasterPlan (ops : RasterizerOps) (env : FontEnv) (font : FontInstance) (key : GlyphKey)
    (ct_font : CTFont) : RasterPlan :=
  let scales := (ops.computeScale font.transform).getD (1, 1)
  let x_scale := scales.1
  let y_scale := scales.2
  let size := font.size * y_scale
  let glyph_type := if isBitmapFont font then GlyphType.Bitmap else GlyphType.Vector
  let start : FontTransform × ℚ × ℚ :=
    match glyph_type with
    | .Bitmap => (FontTransform.identity, 0, 0)
    | .Vector => (ops.invertScale font.transform y_scale y_scale, ops.getSubpxOffset font key)
  let x_offset := start.2.1
  let y_offset := start.2.2
  let shape1 := if font.flags.flip_x then ops.flipXT start.1 else start.1
  let shape2 := if font.flags.flip_y then ops.flipYT shape1 else shape1
  let shape3 := if font.flags.transpose then ops.swapXYT shape2 else shape2
  let italics : FontTransform × ℚ × ℚ :=
    if font.synthetic_italics.isEnabled then ops.synthesizeItalics font shape3 size
    else (shape3, 0, 0)
  let shape := italics.1
  let tx := italics.2.1
  let ty := italics.2.2
  let transform : Option CGAffineTransformM :=
    if ops.isIdentity shape = false ∨ (tx, ty) ≠ ((0 : ℚ), (0 : ℚ)) then
      some ⟨shape.scale_x, -shape.skew_y, -shape.skew_x, shape.scale_y, tx, -ty⟩
    else none
  let glyph := key.index % 65536
  let strikes : ℚ × ℚ := if glyph_type = .Bitmap then (y_scale, 1) else (x_scale, y_scale / x_scale)
  let extra_strikes := ops.getExtraStrikes font strikes.1
  let metrics := getGlyphMetrics env ct_font transform glyph x_offset y_offset
    ((extra_strikes : ℚ) * strikes.2)
  ⟨glyph_type, x_offset, y_offset, tx, ty, transform, strikes.1, strikes.2, extra_strikes, metrics⟩

/-- FontContext::rasterize_glyph: resolve the sized font (LoadFailed when the
base font is absent), compute the transform and metrics (LoadFailed when they
collapse to zero width or height), then draw into the pooled surface, read the
pixels back, and post-process vector glyphs by optional linearization, channel
inversion with alpha synthesis, and optional gamma correction. -/
def rasterizeGlyph (smoothingMode : Option FontRenderMode) (ops : RasterizerOps) (env : FontEnv)
    (st : FontContext) (font : FontInstance) (key : GlyphKey) :
    Except GlyphRasterError RasterizedGlyph × FontContext :=
  let scales := (ops.computeScale font.transform).getD (1, 1)
  let y_scale := scales.2
  let size := font.size * y_scale
  let p := getCtFont env st font.font_key size font.variations
  let st1 := p.2
  match p.1 with
  | none => (.error .LoadFailed, st1)
  | some ct_font =>
    let plan := rasterPlan ops env font key ct_font
    if plan.metrics.rasterized_width = 0 ∨ plan.metrics.rasterized_height = 0 then
      (.error .LoadFailed, st1)
    else
      let raster_size := (u32cast plan.metrics.rasterized_width,
                          u32cast plan.metrics.rasterized_height)
      let use_font_smoothing := font.flags.font_smoothing
      let cfg : Bool × Bool × ColorF × ColorF :=
        match plan.glyphType with
        | .Bitmap => (true, false, ColorF.fromU font.color, ColorF.TRANSPARENT)
        | .Vector =>
          match font.render_mode, use_font_smoothing with
          | .Subpixel, _ => (true, true, ColorF.BLACK, ColorF.WHITE)
          | .Alpha, true => (true, true, ColorF.BLACK, ColorF.WHITE)
          | .Alpha, false => (true, false, ColorF.BLACK, ColorF.WHITE)
          | .Mono, _ => (false, false, ColorF.BLACK, ColorF.WHITE)
      let antialias := cfg.1
      let smooth := cfg.2.1
      let text_color := cfg.2.2.1
      let bg_color := cfg.2.2.2
      let gc1 := getContext st1.graphics_context raster_size plan.glyphType
      let origin0 : ℚ × ℚ :=
        (-(plan.metrics.rasterized_left : ℚ) + plan.xOffset + plan.tx,
         (plan.metrics.rasterized_descent : ℚ) - plan.yOffset - plan.ty)
      let draw_origin :=
        match plan.transform with
        | some t => applyAffine (invertAffine t) origin0
        | none => origin0
      let params : DrawParams :=
        ⟨raster_size, antialias, smooth, text_color, bg_color, draw_origin, plan.transform,
         plan.extraStrikes, plan.pixelStep⟩
      let glyph := key.index % 65536
      let raw := env.drawAndReadback ct_font glyph params
      let rasterized_pixels :=
        if plan.glyphType = .Vector then
          let pa := if smooth then st1.gamma_lut.coregraphics_convert_to_linear raw else raw
          let pb := invertAndAlpha pa
          if smooth then gammaCorrectPixels st1.gamma_lut smoothingMode pb font.render_mode font.color
          else pb
        else raw
      let st2 := { st1 with graphics_context := gc1 }
      (.ok
        { left := (plan.metrics.rasterized_left : ℚ)
          top := (plan.metrics.rasterized_ascent : ℚ)
          width := plan.metrics.rasterized_width
          height := plan.metrics.rasterized_height
          scale := match plan.glyphType with
            | .Bitmap => y_scale⁻¹
            | .Vector => 1
          format := match plan.glyphType with
            | .Bitmap => .ColorBitmap
            | .Vector => ops.getGlyphFormat font
          bytes := rasterized_pixels }, st2)

/-- Gamma LUT instance whose table transformations are identities; used to
instantiate contexts on concrete inputs. -/
def lutId : GammaLut :=
  { preblend := fun pixels _ => pixels
    preblend_grayscale := fun pixels _ => pixels
    coregraphics_convert_to_linear := fun pixels => pixels }

/-- Base oracle environment used for concrete evaluations: no font resolves,
lookups return trivial values. -/
def envBase : FontEnv :=
  { fromDataProvider := fun _ => none
    fromName := fun _ => none
    newFromPostscriptName := fun _ => 0
    descriptorOfCGFont := fun d => d
    createCopyWithAttributes := fun d _ => some d
    copyVariationAxes := fun _ => none
    glyphsForChars := fun _ _ => none
    getBoundingRects := fun _ _ => ⟨.fin 0, .fin 0, .fin 0, .fin 0⟩
    getAdvances := fun _ _ => 0
    drawAndReadback := fun _ _ _ => [] }

/-- Concrete RasterizerOps instance with identity-like helpers; used to
instantiate the parameterized theorems on concrete inputs. -/
def opsId : RasterizerOps :=
  { computeScale := fun _ => none
    invertScale := fun t _ _ => t
    flipXT := fun t => t
    flipYT := fun t => t
    swapXYT := fun t => t
    isIdentity := fun _ => true
    getSubpxOffset := fun _ _ => (0, 0)
    synthesizeItalics := fun _ t _ => (t, 0, 0)
    getExtraStrikes := fun _ _ => 0
    getGlyphFormat := fun _ => .Alpha
    getTransformedSize := fun f => f.size
    quantize := fun c => c
    luminanceColor := fun c => c }

/-- Environment in which no hidden (dot-prefixed) font name resolves but every
ordinary name, including the Lucida Grande fallback, is installed. -/
def envC1 : FontEnv :=
  { envBase with fromName := fun s => if startsWithDot s then none else some 7 }

/-- Environment whose bounding-rect query reports a NaN origin. -/
def envNaN : FontEnv :=
  { envBase with getBoundingRects := fun _ _ => ⟨.nan, .fin 0, .fin 0, .fin 0⟩ }

/-- Environment reporting one well-formed variation axis with tag 1, name
wght, range 0 to 100 and default 50. -/
def envAx : FontEnv :=
  { envBase with
    copyVariationAxes := fun _ =>
      some [some ⟨some 1, some "wght", some 0, some 100, some 50⟩] }

/-- Concrete context holding one base font under key 0 and one cached sized
font entry for it. -/
def ctxC6 : FontContext :=
  { FontContext.new lutId with
    cg_fonts := fun k => if k = 0 then some 5 else none
    ct_fonts := fun k =>
      if k = (0, 600, ([] : List FontVariation)) then some ⟨5, 10, []⟩ else none }

/-- Concrete font instance used to instantiate prepare_font idempotence. -/
def fontW : FontInstance :=
  ⟨0, 12, FontTransform.identity, [], ⟨true, false, true, false, false, false, false, false⟩,
   ⟨10, 20, 30, 255⟩, .Subpixel, ⟨0⟩⟩

/-- A variation axis with all metadata present, as enumerated by the native
font service. -/
structure WfAxis where
  tag : ℤ
  name : String
  minVal : ℚ
  maxVal : ℚ
  defVal : ℚ

/-- Axes-array entry carrying a well-formed axis dictionary. -/
def WfAxis.entry (a : WfAxis) : AxisEntry :=
  some ⟨some a.tag, some a.name, some a.minVal, some a.maxVal, some a.defVal⟩

/-- Per-axis applied-variation policy following the words of the spec: find a
caller-supplied value with matching axis tag; if none supplied, skip the axis;
otherwise clamp the value into the axis minimum-maximum range and include it
only if it differs from the axis default. -/
def specAppliedVariation (variations : List FontVariation) (a : WfAxis) : Option (String × ℚ) :=
  match variations.find? (fun variation => (variation.tag : ℤ) = a.tag) with
  | none => none
  | some variation =>
    let clamped := min (max variation.value a.minVal) a.maxVal
    if clamped ≠ a.defVal then some (a.name, clamped) else none

/-- C1 (code bug): add_native_font does not substitute the fallback font for
the registered entry.  In an environment where the requested hidden system
font name resolves to no font while the Lucida Grande fallback is installed,
the call still panics: the fallback is only used for the dead descriptor
computation, and the final insertion unwraps CGFont::from_name on the original
unresolvable name. -/
theorem add_native_font_panics_on_unresolved_name :
    addNativeFont envC1 (FontContext.new lutId) 0 ⟨".SFNS-Regular", ""⟩ =
      .error "called Result::unwrap() on an Err value" := by
  rfl

/-- C2: rasterize_glyph returns the error LoadFailed exactly when the sized
font cannot be resolved (base font absent) or the computed glyph metrics have
zero rasterized width or height; in every other case it returns a successful
RasterizedGlyph, and LoadFailed is the only error value it can return. -/
theorem rasterize_glyph_load_failed_iff (smoothingMode : Option FontRenderMode)
    (ops : RasterizerOps) (env : FontEnv) (st : FontContext) (font : FontInstance)
    (key : GlyphKey) :
    (match (getCtFont env st font.font_key
        (font.size * ((ops.computeScale font.transform).getD (1, 1)).2) font.variations).1 with
     | none => (rasterizeGlyph smoothingMode ops env st font key).1 = .error .LoadFailed
     | some ct_font =>
       ((rasterizeGlyph smoothingMode ops env st font key).1 = .error .LoadFailed ↔
         ((rasterPlan ops env font key ct_font).metrics.rasterized_width = 0 ∨
          (rasterPlan ops env font key ct_font).metrics.rasterized_height = 0))) ∧
    (∀ e, (rasterizeGlyph smoothingMode ops env st font key).1 = .error e →
      e = .LoadFailed) := by
  constructor
  · cases h : (getCtFont env st font.font_key
        (font.size * ((ops.computeScale font.transform).getD (1, 1)).2) font.variations).1 with
    | none =>
      simp only [rasterizeGlyph, h]
    | some ct_font =>
      by_cases hz : (rasterPlan ops env font key ct_font).metrics.rasterized_width = 0 ∨
          (rasterPlan ops env font key ct_font).metrics.rasterized_height = 0
      · simp only [rasterizeGlyph, h]
        simp [hz]
      · simp only [rasterizeGlyph, h]
        simp [hz]
  · intro e he
    cases e
    rfl

/-- C3 (counterexample): after requesting sizes 10x10 then 5x5 then 40x3 on the
vector category, the pooled surface measures 64x32, not the componentwise
maximum of the rounded requests 64x16 that the claim states, because the pool
starts at the initial 32x32 surface and never shrinks below it. -/
theorem surface_pool_claim_counterexample :
    (getContext (getContext (getContext GraphicsContext.new (10, 10) .Vector) (5, 5) .Vector)
        (40, 3) .Vector).vectorContextSize = (64, 32) ∧
    (max (max (next_power_of_two 10) (next_power_of_two 5)) (next_power_of_two 40),
      max (max (next_power_of_two 10) (next_power_of_two 5)) (next_power_of_two 3)) =
      (64, 16) ∧
    ((64, 32) : Nat × Nat) ≠ (64, 16) := by
  decide

/-- C3 (amended): the surface pool never shrinks in either dimension across any
acquisition, and after requesting sizes 10x10 then 5x5 then 40x3 for one
category the pooled surface's dimensions equal the componentwise maximum of
the initial 32x32 surface and the power-of-two roundings of the requested
sizes, namely 64x32. -/
theorem surface_pool_monotonic_growth :
    (∀ (gc : GraphicsContext) (size : Nat × Nat) (glyph_type : GlyphType),
      gc.vectorContextSize.1 ≤ (getContext gc size glyph_type).vectorContextSize.1 ∧
      gc.vectorContextSize.2 ≤ (getContext gc size glyph_type).vectorContextSize.2 ∧
      gc.bitmapContextSize.1 ≤ (getContext gc size glyph_type).bitmapContextSize.1 ∧
      gc.bitmapContextSize.2 ≤ (getContext gc size glyph_type).bitmapContextSize.2) ∧
    (getContext (getContext (getContext GraphicsContext.new (10, 10) .Vector) (5, 5) .Vector)
        (40, 3) .Vector).vectorContextSize =
      (max INITIAL_CG_CONTEXT_SIDE_LENGTH
          (max (max (next_power_of_two 10) (next_power_of_two 5)) (next_power_of_two 40)),
        max INITIAL_CG_CONTEXT_SIDE_LENGTH
          (max (max (next_power_of_two 10) (next_power_of_two 5)) (next_power_of_two 3))) := by
  constructor
  · intro gc size glyph_type
    cases glyph_type <;> simp only [getContext] <;>
      refine ⟨?_, ?_, ?_, ?_⟩ <;> first
        | omega
        | (split <;> simp)
  · decide

/-- C4: when instantiating a sized font with variations, each axis reported by
the font service with a caller-supplied value for its tag contributes the
value clamped into the axis minimum-maximum range, and only when the clamped
value differs from the axis default; axes without a supplied value are
skipped.  Concretely, on an axis with range 0 to 100 and default 50, a
supplied 150 is applied as 100, and a supplied 50 is omitted. -/
theorem variation_axes_clamp_and_filter :
    (∀ (variations : List FontVariation) (axes : List WfAxis),
      collectVals variations (axes.map WfAxis.entry) =
        some (axes.filterMap (specAppliedVariation variations))) ∧
    (newCtFontWithVariations envAx 7 12 [⟨1, 150⟩]).appliedVars = [("wght", 100)] ∧
    (newCtFontWithVariations envAx 7 12 [⟨1, 50⟩]).appliedVars = [] := by
  refine ⟨?_, ?_, ?_⟩
  · intro variations axes
    induction axes with
    | nil => rfl
    | cons a rest ih =>
      simp only [List.map_cons, collectVals, WfAxis.entry, List.filterMap_cons, ih]
      cases h : variations.find? (fun variation => (variation.tag : ℤ) = a.tag) with
      | none => simp [specAppliedVariation, h]
      | some variation =>
        simp only [specAppliedVariation, h]
        split <;> simp_all
  · decide
  · decide

/-- C5: whenever the reported ink bounding box has a NaN in its origin x,
origin y, width or height, get_glyph_metrics returns all-zero metrics (left,
width, height, ascent, descent zero and advance zero), skipping the rounding
and outset arithmetic. -/
theorem glyph_metrics_nan_guard (env : FontEnv) (ct_font : CTFont)
    (transform : Option CGAffineTransformM) (glyph : Nat) (x_offset y_offset extra_width : ℚ)
    (h : (env.getBoundingRects ct_font glyph).originX.isNaN = true ∨
         (env.getBoundingRects ct_font glyph).originY.isNaN = true ∨
         (env.getBoundingRects ct_font glyph).width.isNaN = true ∨
         (env.getBoundingRects ct_font glyph).height.isNaN = true) :
    getGlyphMetrics env ct_font transform glyph x_offset y_offset extra_width =
      zeroGlyphMetrics := by
  rcases h with h | h | h | h <;> simp [getGlyphMetrics, h]

/-- Witness for C5: with an environment reporting a NaN bound, the metrics of
a concrete glyph are the zero metrics. -/
theorem glyph_metrics_nan_guard_witness :
    getGlyphMetrics envNaN ⟨0, 12, []⟩ none 3 0 0 0 = zeroGlyphMetrics :=
  glyph_metrics_nan_guard envNaN ⟨0, 12, []⟩ none 3 0 0 0 (Or.inl rfl)

/-- C6: after delete_font, the base font and every cached sized/varied entry
keyed by that FontKey are gone, so a subsequent get_ct_font for that key
returns none for any size and variation combination.  The hypothesis is the
reachability invariant that a cached sized entry only exists while its base
font does. -/
theorem delete_font_removes_all (env : FontEnv) (st : FontContext) (font_key : FontKey)
    (hinv : ∀ (sz : ℤ) (vars : List FontVariation),
      (st.ct_fonts (font_key, sz, vars)).isSome = true →
        (st.cg_fonts font_key).isSome = true) :
    (deleteFont st font_key).cg_fonts font_key = none ∧
    (∀ (sz : ℤ) (vars : List FontVariation),
      (deleteFont st font_key).ct_fonts (font_key, sz, vars) = none) ∧
    (∀ (size : ℚ) (vars : List FontVariation),
      (getCtFont env (deleteFont st font_key) font_key size vars).1 = none) := by
  cases hcg : st.cg_fonts font_key with
  | none =>
    have hct : ∀ (sz : ℤ) (vars : List FontVariation),
        st.ct_fonts (font_key, sz, vars) = none := by
      intro sz vars
      cases hc : st.ct_fonts (font_key, sz, vars) with
      | none => rfl
      | some v =>
        have := hinv sz vars (by simp [hc])
        simp [hcg] at this
    refine ⟨?_, ?_, ?_⟩
    · simp [deleteFont, hcg]
    · intro sz vars
      simp [deleteFont, hcg, hct]
    · intro size vars
      simp [deleteFont, hcg, getCtFont, hct]
  | some cg_font =>
    refine ⟨?_, ?_, ?_⟩
    · simp [deleteFont, hcg]
    · intro sz vars
      simp [deleteFont, hcg]
    · intro size vars
      simp [deleteFont, hcg, getCtFont]

/-- Witness for C6: deleting the only base font of a concrete context removes
its base entry, its cached sized entry, and makes a sized lookup return
none. -/
theorem delete_font_removes_all_witness :
    (deleteFont ctxC6 0).cg_fonts 0 = none ∧
    (deleteFont ctxC6 0).ct_fonts (0, 600, []) = none ∧
    (getCtFont envBase (deleteFont ctxC6 0) 0 10 []).1 = none := by
  have h := delete_font_removes_all envBase ctxC6 0 (fun _ _ _ => rfl)
  exact ⟨h.1, h.2.1 600 [], h.2.2 10 []⟩

/-- C7: gamma correction derives the smoothed color by reducing each of R, G,
B by one quarter (channel minus channel divided by four) when the probed
smoothing mode is Subpixel, halving each channel when it is Alpha, and leaving
the color unchanged otherwise; then Alpha render mode preblends the pixels
with the grayscale luminance gamma lookup, Subpixel render mode preblends per
channel, and Mono render mode leaves the pixels untouched. -/
theorem gamma_correct_pixels_spec (lut : GammaLut) (smoothingMode : Option FontRenderMode)
    (pixels : List Nat) (render_mode : FontRenderMode) (color : ColorU) :
    gammaCorrectPixels lut smoothingMode pixels render_mode color =
      (let smoothed : ColorU :=
        match smoothingMode with
        | some .Subpixel =>
          ⟨color.r - color.r / 4, color.g - color.g / 4, color.b - color.b / 4, color.a⟩
        | some .Alpha => ⟨color.r / 2, color.g / 2, color.b / 2, color.a⟩
        | _ => color
      match render_mode with
      | .Alpha => lut.preblend_grayscale pixels smoothed
      | .Subpixel => lut.preblend pixels smoothed
      | .Mono => pixels) := by
  cases render_mode <;> rfl

/-- C8: prepare_font is idempotent: applying it twice yields the same instance
as applying it once, for every smoothing-probe result and every quantize and
luminance helper satisfying their characteristic equations (quantize is
idempotent, and the luminance color of an already quantized luminance color is
itself). -/
theorem prepare_font_idempotent (smoothingMode : Option FontRenderMode) (ops : RasterizerOps)
    (font : FontInstance)
    (hq : ∀ c, ops.quantize (ops.quantize c) = ops.quantize c)
    (hlq : ∀ c, ops.luminanceColor (ops.quantize (ops.luminanceColor c)) =
      ops.quantize (ops.luminanceColor c)) :
    prepareFont smoothingMode ops (prepareFont smoothingMode ops font) =
      prepareFont smoothingMode ops font := by
  obtain ⟨fk, sz, tr, vars, flags, col, rm, si⟩ := font
  obtain ⟨fs, eb, sp, fx, fy, tp, sb, mb⟩ := flags
  cases eb <;> cases rm <;> rcases smoothingMode with _ | m <;>
    (try cases m) <;> cases fs <;>
    simp [prepareFont, disableSubpixelPosition, isBitmapFont, limitBy,
      FontRenderMode.rank, hq, hlq]

/-- Witness for C8: idempotence instantiated on a concrete font instance with
identity quantize and luminance helpers. -/
theorem prepare_font_idempotent_witness :
    prepareFont none opsId (prepareFont none opsId fontW) = prepareFont none opsId fontW :=
  prepare_font_idempotent none opsId fontW (fun c => rfl) (fun c => rfl)

/-- C9: add_raw_font asserts the face index is zero: on a key that is not
already registered, a nonzero index panics (modelled as the assertion error)
instead of registering or dropping the font. -/
theorem add_raw_font_asserts_index_zero (env : FontEnv) (st : FontContext) (font_key : FontKey)
    (bytes : Bytes) (index : Nat) (hfresh : st.cg_fonts font_key = none) (hidx : index ≠ 0) :
    addRawFont env st font_key bytes index = .error "assertion failed: index == 0" := by
  simp [addRawFont, hfresh, hidx]

/-- Witness for C9: a nonzero face index on an empty context panics. -/
theorem add_raw_font_asserts_index_zero_witness :
    addRawFont envBase (FontContext.new lutId) 0 0 1 =
      .error "assertion failed: index == 0" :=
  add_raw_font_asserts_index_zero envBase (FontContext.new lutId) 0 0 1 rfl (by decide)

/-- C10: get_glyph_index truncates the character to 16 bits before querying,
so any two characters congruent modulo 65536 give identical results (every
supplementary-plane character queries the wrong code unit), and the lookup
always goes through the sized font cached at the fixed size 16 with no
variations. -/
theorem get_glyph_index_truncation (env : FontEnv) (st : FontContext) (font_key : FontKey)
    (ch : Nat) :
    (getGlyphIndex env st font_key ch).1 = (getGlyphIndex env st font_key (ch % 65536)).1 ∧
    (getGlyphIndex env st font_key ch).1 =
      ((getCtFont env st font_key 16 []).1).bind
        (fun ct_font => env.glyphsForChars ct_font (ch % 65536)) := by
  have h : ch % 65536 % 65536 = ch % 65536 := by omega
  constructor <;> simp [getGlyphIndex, h]

end GlyphRaster
